import Mathlib

/-!
Verification of the per-connection SOCKS5 negotiation and relay logic of
`gosocks.go` (glacjay/gosocks).

The connection handler `clientLoop` is embedded as a pure function over the
list of bytes the client sends.  Bytes are modelled as `Nat` (every value the
Go code reads from the wire is an unsigned 8-bit integer, so all arithmetic is
on values below 256; theorems add explicit `< 256` bounds where byte
truncation matters).  The two effectful collaborators are passed in as
oracles:

* `dns : List Nat → Option (List (List Nat))` models `net.LookupIP` — `none`
  is a lookup error, `some ips` a (possibly empty) result list, each address a
  list of bytes (4 for IPv4, 16 for IPv6);
* `dial : List Nat → Nat → Option (List Nat × Nat)` models `net.DialTCP` —
  `none` is a dial failure, `some (localIP, localPort)` a success carrying the
  local (bound) address of the new outbound socket.

The result of a run records every byte written back to the client, the part
of the input stream left unread, and whether the relay phase was reached.
-/

namespace Gosocks

/-- `io.ReadFull` on the model input stream: succeeds exactly when at least
`n` bytes remain, returning the bytes read and the rest of the stream. -/
def readFull (n : Nat) (s : List Nat) : Option (List Nat × List Nat) :=
  if n ≤ s.length then some (s.take n, s.drop n) else none

/-- The `hasMethod0` scan over the offered method identifiers
(gosocks.go, lines 66–72). -/
def hasMethod0 : List Nat → Bool
  | [] => false
  | m :: rest => if m = 0 then true else hasMethod0 rest

/-- `var reply [22]byte; reply[0] = 0x05; reply[2] = 0x00`
(gosocks.go, lines 92–94): the zero-initialised reply buffer with the
version and reserved bytes filled in. -/
def initReply : List Nat := ((List.replicate 22 0).set 0 5).set 2 0

/-- Go's `copy(dst[i:], src)`: write the bytes of `src` into `dst` starting
at index `i` (writes past the end of `dst` are dropped, as `List.set` is the
identity out of range). -/
def copyInto : List Nat → Nat → List Nat → List Nat
  | dst, _, [] => dst
  | dst, i, b :: rest => copyInto (dst.set i b) (i + 1) rest

/-- Outcome of one negotiation phase: either the connection is closed
(carrying the bytes written during the phase and the unread input), or the
phase succeeds with a value and control continues. -/
inductive Phase (α : Type) where
  | closed (written : List Nat) (rest : List Nat)
  | next (val : α) (written : List Nat) (rest : List Nat)
deriving DecidableEq

/-- Greeting handling (gosocks.go, lines 41–83): read version and method
count, reject version ≠ 5 or a zero method count, read the offered methods,
and close unless method `0x00` is offered; on success write the
method-selection frame `[0x05][0x00]` (the code reuses `versionMethod` with
its second byte overwritten to 0, line 78). -/
def handleGreeting (input : List Nat) : Phase Unit :=
  match readFull 2 input with
  | none => .closed [] input
  | some (vm, s1) =>
    if vm.getD 0 0 ≠ 5 then .closed [] s1
    else if vm.getD 1 0 = 0 then .closed [] s1
    else
      match readFull (vm.getD 1 0) s1 with
      | none => .closed [] s1
      | some (methods, s2) =>
        if hasMethod0 methods then .next () [5, 0] s2
        else .closed [] s2

/-- Decoding of a fixed-size address-plus-port remainder
(gosocks.go, lines 121–122): the first `ipLen` bytes are the address, and the
port is `int(buf[ipLen])<<8 + int(buf[ipLen+1])`. -/
def decodeAddrPort (ipLen : Nat) (buf : List Nat) : List Nat × Nat :=
  (buf.take ipLen, buf.getD ipLen 0 * 256 + buf.getD (ipLen + 1) 0)

/-- The value a successful request phase hands to the dialer: the partially
filled reply buffer (version, reserved and address-type bytes set) and the
requested target address and port (`remoteAddress` in the Go code). -/
structure Target where
  reply : List Nat
  ip : List Nat
  port : Nat
deriving DecidableEq

/-- Request handling (gosocks.go, lines 85–163): read the 4-byte header,
check version, command and reserved byte in that order, then dispatch on the
address type: `0x01`/`0x04` read `4*atyp + 2` bytes directly; `0x03` reads a
length byte and the host name, resolves it (`net.LookupIP`), takes the first
address and records `len(ips[0])/4` as the reply's address-type byte, and
only then reads the 2 port bytes; any other address type is answered with the
abbreviated `[0x05][0x08][0x00][0x00]` reply.  A command other than CONNECT
is answered with the abbreviated `[0x05][0x07][0x00][0x00]` reply. -/
def handleRequest (dns : List Nat → Option (List (List Nat))) (input : List Nat) :
    Phase Target :=
  match readFull 4 input with
  | none => .closed [] input
  | some (hdr, s) =>
    if hdr.getD 0 0 ≠ 5 then .closed [] s
    else if hdr.getD 1 0 ≠ 1 then .closed ((initReply.set 1 7).take 4) s
    else if hdr.getD 2 0 ≠ 0 then .closed [] s
    else if hdr.getD 3 0 = 1 ∨ hdr.getD 3 0 = 4 then
      match readFull (4 * hdr.getD 3 0 + 2) s with
      | none => .closed [] s
      | some (buf, s2) =>
        let ap := decodeAddrPort (4 * hdr.getD 3 0) buf
        .next ⟨initReply.set 3 (hdr.getD 3 0), ap.1, ap.2⟩ [] s2
    else if hdr.getD 3 0 = 3 then
      match readFull 1 s with
      | none => .closed [] s
      | some (lb, s2) =>
        match readFull (lb.getD 0 0) s2 with
        | none => .closed [] s2
        | some (host, s3) =>
          match dns host with
          | none => .closed [] s3
          | some ips =>
            if ips.length = 0 then .closed [] s3
            else
              match readFull 2 s3 with
              | none => .closed [] s3
              | some (pb, s4) =>
                .next ⟨initReply.set 3 ((ips.getD 0 []).length / 4), ips.getD 0 [],
                       pb.getD 0 0 * 256 + pb.getD 1 0⟩ [] s4
    else .closed ((initReply.set 1 8).take 4) s

/-- Encoding of the success reply (gosocks.go, lines 175–180): set the reply
code to 0, compute `ipEnd = 4 + 4*reply[3]`, copy the target address into
`reply[4:ipEnd]`, store the port big-endian (`byte(port >> 8)`,
`byte(port % 256)`), and emit `reply[:ipEnd+2]`. -/
def encodeSuccessReply (reply : List Nat) (ip : List Nat) (port : Nat) : List Nat :=
  let r1 := reply.set 1 0
  let ipEnd := 4 + 4 * r1.getD 3 0
  let r2 := copyInto r1 4 ip
  let r3 := (r2.set ipEnd (port / 256 % 256)).set (ipEnd + 1) (port % 256)
  r3.take (ipEnd + 2)

/-- What one connection run produces: the bytes written back to the client,
the unread remainder of the client's byte stream, and whether the relay
phase was reached. -/
structure ConnResult where
  written : List Nat
  rest : List Nat
  relayed : Bool
deriving DecidableEq

/-- Dial and reply (gosocks.go, lines 166–191): on dial failure write the
failure reply `reply[:6]` with code 5 and close; on success (the local bound
address `net.DialTCP` returns is never consulted) write the success reply
built from the requested target and enter the relay phase. -/
def finishDial (dial : List Nat → Nat → Option (List Nat × Nat)) (t : Target)
    (rest : List Nat) : ConnResult :=
  match dial t.ip t.port with
  | none => ⟨(t.reply.set 1 5).take 6, rest, false⟩
  | some _ => ⟨encodeSuccessReply t.reply t.ip t.port, rest, true⟩

/-- The full per-connection handler `clientLoop` (gosocks.go, lines 37–191):
greeting, then request parsing, then dial and reply, accumulating all bytes
written to the client. -/
def clientLoop (dns : List Nat → Option (List (List Nat)))
    (dial : List Nat → Nat → Option (List Nat × Nat)) (input : List Nat) :
    ConnResult :=
  match handleGreeting input with
  | .closed w r => ⟨w, r, false⟩
  | .next _ w r =>
    match handleRequest dns r with
    | .closed w2 r2 => ⟨w ++ w2, r2, false⟩
    | .next t w2 r2 =>
      let fin := finishDial dial t r2
      ⟨w ++ w2 ++ fin.written, fin.rest, fin.relayed⟩

/-- Result of one `Read` call in a relay copy loop: `none` is a clean read,
`some .eof` is `os.EOF` (end of stream), `some .other` any other error. -/
inductive ReadErr where
  | eof
  | other
deriving DecidableEq

/-- The exit condition of a relay copy loop's read check
(gosocks.go, lines 201–205 and 227–231): the loop returns exactly when
`err != nil && err != os.EOF`. -/
def readLoopExits (err : Option ReadErr) : Bool :=
  decide (err ≠ none ∧ err ≠ some ReadErr.eof)

/-- Whether a relay copy loop (`readClientLoop` / `readRemoteLoop`) has
returned within its first `n` iterations, when iteration `k`'s read on the
source socket yields error `errs k`. -/
def copyLoopExitedBy (errs : Nat → Option ReadErr) : Nat → Bool
  | 0 => false
  | n + 1 => copyLoopExitedBy errs n || readLoopExits (errs n)

/-! ### Helper lemmas -/

theorem readFull_exact (n : Nat) (xs rest : List Nat) (h : xs.length = n) :
    readFull n (xs ++ rest) = some (xs, rest) := by
  subst h
  rw [readFull, if_pos (by simp)]
  rw [List.take_left, List.drop_left]

theorem hasMethod0_iff (ms : List Nat) : hasMethod0 ms = true ↔ 0 ∈ ms := by
  induction ms with
  | nil => simp [hasMethod0]
  | cons m t ih =>
    by_cases h : m = 0 <;>
      simp [hasMethod0, h, ih, eq_comm (a := (0 : Nat)) (b := m)]

theorem take4_set7 : (initReply.set 1 7).take 4 = [5, 7, 0, 0] := rfl

theorem take4_set8 : (initReply.set 1 8).take 4 = [5, 8, 0, 0] := rfl

theorem failReply_take6 (a : Nat) :
    ((initReply.set 3 a).set 1 5).take 6 = [5, 5, 0, a, 0, 0] := rfl

theorem successReply_v4 (b1 b2 b3 b4 port : Nat) :
    encodeSuccessReply (initReply.set 3 1) [b1, b2, b3, b4] port =
      [5, 0, 0, 1, b1, b2, b3, b4, port / 256 % 256, port % 256] := rfl

theorem set_append_len (pre : List Nat) (b t : Nat) (ts : List Nat) :
    (pre ++ t :: ts).set pre.length b = pre ++ b :: ts := by
  induction pre with
  | nil => rfl
  | cons p ps ih => simp [List.set, ih]

theorem copyInto_append (src pre tail : List Nat) (h : src.length ≤ tail.length) :
    copyInto (pre ++ tail) pre.length src = pre ++ (src ++ tail.drop src.length) := by
  induction src generalizing pre tail with
  | nil => simp [copyInto]
  | cons b bs ih =>
    cases tail with
    | nil => simp at h
    | cons t ts =>
      rw [copyInto, set_append_len]
      have hl : pre.length + 1 = (pre ++ [b]).length := by simp
      have hsh : pre ++ b :: ts = (pre ++ [b]) ++ ts := by simp
      rw [hsh, hl, ih (pre ++ [b]) ts (by simpa using h)]
      simp

theorem set2_take (X : List Nat) (m hi lo : Nat) (hm : 2 ≤ m) :
    (((X ++ List.replicate m 0).set X.length hi).set (X.length + 1) lo).take
        (X.length + 2) = X ++ [hi, lo] := by
  obtain ⟨k, rfl⟩ : ∃ k, m = k + 2 := ⟨m - 2, by omega⟩
  have hrep : List.replicate (k + 2) (0 : Nat) = 0 :: 0 :: List.replicate k 0 := by
    simp [List.replicate_succ]
  rw [hrep, set_append_len]
  have hsh : X ++ hi :: 0 :: List.replicate k 0 = (X ++ [hi]) ++ 0 :: List.replicate k 0 := by
    simp
  have hl : X.length + 1 = (X ++ [hi]).length := by simp
  rw [hsh, hl, set_append_len]
  have hsh2 : (X ++ [hi]) ++ lo :: List.replicate k 0 =
      (X ++ [hi, lo]) ++ List.replicate k 0 := by simp
  rw [hsh2]
  rw [show X.length + 2 = (X ++ [hi, lo]).length by simp]
  exact List.take_left _ _

/-- The success reply frame for a reply buffer whose address-type byte was set
to `a`, an address of the matching length, and any port: version, code 0,
reserved 0, the address-type byte, the address bytes, then the port
big-endian. -/
theorem successReply_eq (a : Nat) (ip : List Nat) (port : Nat)
    (hip : ip.length = 4 * a) (ha : 4 * a ≤ 16) :
    encodeSuccessReply (initReply.set 3 a) ip port =
      ([5, 0, 0, a] ++ ip) ++ [port / 256 % 256, port % 256] := by
  have hr1 : (initReply.set 3 a).set 1 0 = [5, 0, 0, a] ++ List.replicate 18 0 := rfl
  have hg : ([5, 0, 0, a] ++ List.replicate 18 0).getD 3 0 = a := rfl
  have hc : copyInto ([5, 0, 0, a] ++ List.replicate 18 0) 4 ip =
      [5, 0, 0, a] ++ (ip ++ (List.replicate 18 0).drop (4 * a)) := by
    have := copyInto_append ip [5, 0, 0, a] (List.replicate 18 0) (by simp [hip]; omega)
    simpa [hip] using this
  simp only [encodeSuccessReply, hg, hr1, hc]
  rw [List.drop_replicate, ← List.append_assoc]
  rw [show (4 + 4 * a : Nat) = ([5, 0, 0, a] ++ ip).length by simp [hip]; omega]
  rw [set2_take _ _ _ _ (by omega)]

theorem handleGreeting_eq (n : Nat) (ms rest : List Nat)
    (hlen : ms.length = n) (hn : n ≠ 0) :
    handleGreeting (5 :: n :: (ms ++ rest)) =
      if hasMethod0 ms then .next () [5, 0] rest else .closed [] rest := by
  have h2 : readFull 2 (5 :: n :: (ms ++ rest)) = some ([5, n], ms ++ rest) :=
    readFull_exact 2 [5, n] (ms ++ rest) rfl
  have hm : readFull n (ms ++ rest) = some (ms, rest) :=
    readFull_exact n ms rest hlen
  rw [handleGreeting, h2]
  simp [hn, hm]

theorem handleGreeting_one_method0 (tail : List Nat) :
    handleGreeting (5 :: 1 :: 0 :: tail) = .next () [5, 0] tail := by
  have h2 : readFull 2 (5 :: 1 :: 0 :: tail) = some ([5, 1], 0 :: tail) :=
    readFull_exact 2 [5, 1] (0 :: tail) rfl
  have h1 : readFull 1 (0 :: tail) = some ([0], tail) :=
    readFull_exact 1 [0] tail rfl
  rw [handleGreeting, h2]
  simp [h1, hasMethod0]

theorem handleRequest_direct (dns : List Nat → Option (List (List Nat)))
    (a : Nat) (buf rest : List Nat)
    (ha : a = 1 ∨ a = 4) (hlen : buf.length = 4 * a + 2) :
    handleRequest dns (5 :: 1 :: 0 :: a :: (buf ++ rest)) =
      .next ⟨initReply.set 3 a, buf.take (4 * a),
             buf.getD (4 * a) 0 * 256 + buf.getD (4 * a + 1) 0⟩ [] rest := by
  have h4 : readFull 4 (5 :: 1 :: 0 :: a :: (buf ++ rest)) =
      some ([5, 1, 0, a], buf ++ rest) :=
    readFull_exact 4 [5, 1, 0, a] (buf ++ rest) rfl
  have hb : readFull (4 * a + 2) (buf ++ rest) = some (buf, rest) :=
    readFull_exact (4 * a + 2) buf rest hlen
  rw [handleRequest, h4]
  rcases ha with h | h <;> subst h <;> simp [hb, decodeAddrPort]

theorem handleRequest_domain (dns : List Nat → Option (List (List Nat)))
    (host : List Nat) (L p1 p2 : Nat) (rest : List Nat)
    (ip : List Nat) (more : List (List Nat))
    (hL : host.length = L) (hdns : dns host = some (ip :: more)) :
    handleRequest dns (5 :: 1 :: 0 :: 3 :: L :: (host ++ p1 :: p2 :: rest)) =
      .next ⟨initReply.set 3 (ip.length / 4), ip, p1 * 256 + p2⟩ [] rest := by
  have h4 : readFull 4 (5 :: 1 :: 0 :: 3 :: L :: (host ++ p1 :: p2 :: rest)) =
      some ([5, 1, 0, 3], L :: (host ++ p1 :: p2 :: rest)) :=
    readFull_exact 4 [5, 1, 0, 3] (L :: (host ++ p1 :: p2 :: rest)) rfl
  have h1 : readFull 1 (L :: (host ++ p1 :: p2 :: rest)) =
      some ([L], host ++ p1 :: p2 :: rest) :=
    readFull_exact 1 [L] (host ++ p1 :: p2 :: rest) rfl
  have hh : readFull L (host ++ p1 :: p2 :: rest) = some (host, p1 :: p2 :: rest) :=
    readFull_exact L host (p1 :: p2 :: rest) hL
  have hp : readFull 2 (p1 :: p2 :: rest) = some ([p1, p2], rest) :=
    readFull_exact 2 [p1, p2] rest rfl
  rw [handleRequest, h4]
  simp [h1, hh, hp, hdns]

theorem handleRequest_domain_fail (dns : List Nat → Option (List (List Nat)))
    (host rest : List Nat) (L : Nat)
    (hL : host.length = L) (hdns : dns host = none ∨ dns host = some []) :
    handleRequest dns (5 :: 1 :: 0 :: 3 :: L :: (host ++ rest)) = .closed [] rest := by
  have h4 : readFull 4 (5 :: 1 :: 0 :: 3 :: L :: (host ++ rest)) =
      some ([5, 1, 0, 3], L :: (host ++ rest)) :=
    readFull_exact 4 [5, 1, 0, 3] (L :: (host ++ rest)) rfl
  have h1 : readFull 1 (L :: (host ++ rest)) = some ([L], host ++ rest) :=
    readFull_exact 1 [L] (host ++ rest) rfl
  have hh : readFull L (host ++ rest) = some (host, rest) :=
    readFull_exact L host rest hL
  rw [handleRequest, h4]
  rcases hdns with h | h <;> simp [h1, hh, h]

/-! ### Claim theorems -/

/-- C1, counterexample: on a successful CONNECT the reply's bound-address
field carries the requested destination (`1.2.3.4`, port 80), not the local
address of the outbound socket (`9.9.9.9`, port 4242) that the dialer
reported, so the claim that the reply carries the outbound socket's bound
address is false on this input. -/
theorem connectReply_bound_address_cex :
    (clientLoop (fun _ => none) (fun _ _ => some ([9, 9, 9, 9], 4242))
        [5, 1, 0, 5, 1, 0, 1, 1, 2, 3, 4, 0, 80]).written =
      [5, 0, 5, 0, 0, 1, 1, 2, 3, 4, 0, 80] ∧
    (((clientLoop (fun _ => none) (fun _ _ => some ([9, 9, 9, 9], 4242))
        [5, 1, 0, 5, 1, 0, 1, 1, 2, 3, 4, 0, 80]).written.drop 6).take 4 ≠
      [9, 9, 9, 9]) := by
  constructor
  · rfl
  · decide

/-- C1, amended: on every successful CONNECT — direct IPv4 (`0x01`), direct
IPv6 (`0x04`), or domain-resolved — the reply written to the client has code
Success (0x00) and carries, as its bound address and bound port fields, the
requested (resolved) destination address and port; the local address of the
outbound socket, returned by the dialer, is never consulted. -/
theorem connectReply_success_echoes_target
    (dns : List Nat → Option (List (List Nat)))
    (dial : List Nat → Nat → Option (List Nat × Nat))
    (p1 p2 : Nat) (rest : List Nat) (loc : List Nat × Nat)
    (hp1 : p1 < 256) (hp2 : p2 < 256) :
    (∀ a ip, (a = 1 ∨ a = 4) → ip.length = 4 * a →
      dial ip (p1 * 256 + p2) = some loc →
      clientLoop dns dial
          (5 :: 1 :: 0 :: 5 :: 1 :: 0 :: a :: ((ip ++ [p1, p2]) ++ rest)) =
        ⟨([5, 0, 5, 0, 0, a] ++ ip) ++ [p1, p2], rest, true⟩) ∧
    (∀ host L ip more, host.length = L → dns host = some (ip :: more) →
      (ip.length = 4 ∨ ip.length = 16) →
      dial ip (p1 * 256 + p2) = some loc →
      clientLoop dns dial
          (5 :: 1 :: 0 :: 5 :: 1 :: 0 :: 3 :: L :: (host ++ p1 :: p2 :: rest)) =
        ⟨([5, 0, 5, 0, 0, ip.length / 4] ++ ip) ++ [p1, p2], rest, true⟩) := by
  have e1 : (p1 * 256 + p2) / 256 % 256 = p1 := by omega
  have e2 : (p1 * 256 + p2) % 256 = p2 := by omega
  constructor
  · intro a ip ha hip hdial
    have hbuf : (ip ++ [p1, p2]).length = 4 * a + 2 := by simp [hip]
    have hreq := handleRequest_direct dns a (ip ++ [p1, p2]) rest ha hbuf
    have ht : (ip ++ [p1, p2]).take (4 * a) = ip := by
      rw [← hip]
      exact List.take_left _ _
    have hg1 : (ip ++ [p1, p2]).getD (4 * a) 0 = p1 := by
      rw [← hip, List.getD_append_right _ _ _ _ (le_refl _)]
      simp
    have hg2 : (ip ++ [p1, p2]).getD (4 * a + 1) 0 = p2 := by
      rw [← hip, List.getD_append_right _ _ _ _ (by omega)]
      simp
    rw [ht, hg1, hg2] at hreq
    have hs := successReply_eq a ip (p1 * 256 + p2) hip
      (by rcases ha with h | h <;> omega)
    simp only [clientLoop, handleGreeting_one_method0, hreq, finishDial, hdial, hs,
      e1, e2]
    simp
  · intro host L ip more hL hdns h46 hdial
    have hreq := handleRequest_domain dns host L p1 p2 rest ip more hL hdns
    have hip4 : ip.length = 4 * (ip.length / 4) := by rcases h46 with h | h <;> omega
    have hle : 4 * (ip.length / 4) ≤ 16 := by rcases h46 with h | h <;> omega
    have hs := successReply_eq (ip.length / 4) ip (p1 * 256 + p2) hip4 hle
    simp only [clientLoop, handleGreeting_one_method0, hreq, finishDial, hdial, hs,
      e1, e2]
    simp

/-- C1, witness: the amended theorem instantiated at a concrete direct-IPv4
input and at a concrete domain-resolved (IPv6) input. -/
theorem connectReply_success_echoes_target_witness :
    clientLoop (fun _ => none) (fun _ _ => some ([9, 9, 9, 9], 4242))
        (5 :: 1 :: 0 :: 5 :: 1 :: 0 :: 1 :: (([1, 2, 3, 4] ++ [0, 80]) ++ [])) =
      ⟨([5, 0, 5, 0, 0, 1] ++ [1, 2, 3, 4]) ++ [0, 80], [], true⟩ ∧
    clientLoop (fun _ => some [[1, 2, 3, 4, 5, 6, 7, 8, 9, 10, 11, 12, 13, 14, 15, 16]])
        (fun _ _ => some ([9, 9, 9, 9], 4242))
        (5 :: 1 :: 0 :: 5 :: 1 :: 0 :: 3 :: 2 :: ([97, 98] ++ 0 :: 80 :: [])) =
      ⟨([5, 0, 5, 0, 0, 4] ++ [1, 2, 3, 4, 5, 6, 7, 8, 9, 10, 11, 12, 13, 14, 15, 16]) ++
        [0, 80], [], true⟩ :=
  ⟨(connectReply_success_echoes_target (fun _ => none)
      (fun _ _ => some ([9, 9, 9, 9], 4242)) 0 80 [] ([9, 9, 9, 9], 4242)
      (by decide) (by decide)).1 1 [1, 2, 3, 4] (Or.inl rfl) rfl rfl,
   (connectReply_success_echoes_target
      (fun _ => some [[1, 2, 3, 4, 5, 6, 7, 8, 9, 10, 11, 12, 13, 14, 15, 16]])
      (fun _ _ => some ([9, 9, 9, 9], 4242)) 0 80 [] ([9, 9, 9, 9], 4242)
      (by decide) (by decide)).2 [97, 98] 2
      [1, 2, 3, 4, 5, 6, 7, 8, 9, 10, 11, 12, 13, 14, 15, 16] [] rfl rfl
      (Or.inr rfl) rfl⟩

/-- C2, counterexample: on a CONNECT to 1.2.3.4:80 whose dial fails, the
reply frame the proxy writes (after the 2-byte method selection) is the
6-byte `[0x05][0x05][0x00][0x01][0x00][0x00]` — with the address-type byte
already set to 1 and only two zero bytes — not the claimed 8-byte
`[0x05][0x05][0x00][0x00][0x00][0x00][0x00][0x00]`. -/
theorem dialFailure_reply_cex :
    (clientLoop (fun _ => none) (fun _ _ => none)
        [5, 1, 0, 5, 1, 0, 1, 1, 2, 3, 4, 0, 80]).written.drop 2 =
      [5, 5, 0, 1, 0, 0] ∧
    ([5, 5, 0, 1, 0, 0] : List Nat) ≠ [5, 5, 0, 0, 0, 0, 0, 0] := by
  constructor
  · rfl
  · decide

/-- C2, amended: for every CONNECT request — direct IPv4 (`0x01`), direct
IPv6 (`0x04`), or domain-resolved — whose outbound dial fails, the proxy
writes the 6-byte reply frame `[0x05][0x05][0x00][ATYP][0x00][0x00]` —
general failure with the address-type byte recorded during parsing (the
request's ATYP for direct types, `len(ips[0])/4` for domain requests) and a
two-byte zero tail (`reply[:6]`) — and then closes the connection. -/
theorem dialFailure_reply (dns : List Nat → Option (List (List Nat)))
    (dial : List Nat → Nat → Option (List Nat × Nat)) :
    (∀ a buf rest, (a = 1 ∨ a = 4) → buf.length = 4 * a + 2 →
      dial (buf.take (4 * a))
          (buf.getD (4 * a) 0 * 256 + buf.getD (4 * a + 1) 0) = none →
      clientLoop dns dial (5 :: 1 :: 0 :: 5 :: 1 :: 0 :: a :: (buf ++ rest)) =
        ⟨[5, 0, 5, 5, 0, a, 0, 0], rest, false⟩) ∧
    (∀ host L p1 p2 rest ip more, host.length = L → dns host = some (ip :: more) →
      dial ip (p1 * 256 + p2) = none →
      clientLoop dns dial
          (5 :: 1 :: 0 :: 5 :: 1 :: 0 :: 3 :: L :: (host ++ p1 :: p2 :: rest)) =
        ⟨[5, 0, 5, 5, 0, ip.length / 4, 0, 0], rest, false⟩) := by
  constructor
  · intro a buf rest ha hlen hdial
    have hreq := handleRequest_direct dns a buf rest ha hlen
    simp only [clientLoop, handleGreeting_one_method0, hreq, finishDial, hdial,
      failReply_take6]
    simp
  · intro host L p1 p2 rest ip more hL hdns hdial
    have hreq := handleRequest_domain dns host L p1 p2 rest ip more hL hdns
    simp only [clientLoop, handleGreeting_one_method0, hreq, finishDial, hdial,
      failReply_take6]
    simp

/-- C2, witness: the amended theorem instantiated at a concrete direct-IPv4
input and at a concrete domain-resolved input. -/
theorem dialFailure_reply_witness :
    clientLoop (fun _ => none) (fun _ _ => none)
        (5 :: 1 :: 0 :: 5 :: 1 :: 0 :: 1 :: ([1, 2, 3, 4, 0, 80] ++ [])) =
      ⟨[5, 0, 5, 5, 0, 1, 0, 0], [], false⟩ ∧
    clientLoop (fun _ => some [[10, 0, 0, 1]]) (fun _ _ => none)
        (5 :: 1 :: 0 :: 5 :: 1 :: 0 :: 3 :: 1 :: ([97] ++ 0 :: 80 :: [])) =
      ⟨[5, 0, 5, 5, 0, 1, 0, 0], [], false⟩ :=
  ⟨(dialFailure_reply (fun _ => none) (fun _ _ => none)).1 1 [1, 2, 3, 4, 0, 80] []
      (Or.inl rfl) rfl rfl,
   (dialFailure_reply (fun _ => some [[10, 0, 0, 1]]) (fun _ _ => none)).2 [97] 1 0 80
      [] [10, 0, 0, 1] [] rfl rfl rfl⟩

/-- C3: the claim says each relay copy loop terminates once a read returns
end-of-stream; in the code the loop's only exit is `err != nil && err !=
os.EOF`, so a read returning `os.EOF` never exits the loop, and a socket at
end-of-stream (which yields `(0, os.EOF)` on every read) keeps the loop —
and hence the engine joining on both loops — running forever. -/
theorem relayLoop_never_exits_on_eof :
    readLoopExits (some ReadErr.eof) = false ∧
    ∀ n, copyLoopExitedBy (fun _ => some ReadErr.eof) n = false := by
  constructor
  · rfl
  · intro n
    induction n with
    | zero => rfl
    | succ k ih => simp [copyLoopExitedBy, ih, readLoopExits]

/-- C4, counterexample: a request header with command `0x02` and reserved
byte `0x01` is answered with the 4-byte wire reply
`[0x05][0x07][0x00][0x00]` — the command check precedes the reserved-byte
check — contradicting the claim that a non-zero reserved byte yields a
silent close regardless of the command field. -/
theorem reservedNonzero_cmd_precedence_cex :
    handleRequest (fun _ => none) [5, 2, 1, 1] = .closed [5, 7, 0, 0] [] ∧
    ([5, 7, 0, 0] : List Nat) ≠ [] := by
  constructor
  · rfl
  · decide

/-- C4, amended: for every CONNECT request (command `0x01`) whose reserved
byte is not `0x00`, parsing closes the connection without writing any wire
reply, regardless of the version and address-type bytes; when the command is
not CONNECT the command check takes precedence and an `0x07` reply is
written instead. -/
theorem reservedNonzero_closed_silently (dns : List Nat → Option (List (List Nat)))
    (v r a : Nat) (s : List Nat) (hr : r ≠ 0) :
    handleRequest dns (v :: 1 :: r :: a :: s) = .closed [] s := by
  have h4 : readFull 4 (v :: 1 :: r :: a :: s) = some ([v, 1, r, a], s) :=
    readFull_exact 4 [v, 1, r, a] s rfl
  rw [handleRequest, h4]
  by_cases hv : v = 5 <;> simp [hv, hr]

/-- C4, witness for the amended theorem at a concrete input. -/
theorem reservedNonzero_closed_silently_witness :
    handleRequest (fun _ => none) (5 :: 1 :: 1 :: 1 :: []) = .closed [] [] :=
  reservedNonzero_closed_silently (fun _ => none) 5 1 1 [] (by decide)

/-- C5: for every domain-name CONNECT request whose DNS lookup succeeds with
a non-empty result, the proxy targets the first returned address, and the
address-type byte of the success reply is the family of that address: `0x01`
when it is 4 bytes (IPv4) and `0x04` when it is 16 bytes (IPv6); the reply
carries that first address. -/
theorem domainReply_family (dns : List Nat → Option (List (List Nat)))
    (dial : List Nat → Nat → Option (List Nat × Nat))
    (host rest : List Nat) (L p1 p2 : Nat)
    (ip : List Nat) (more : List (List Nat)) (loc : List Nat × Nat)
    (hL : host.length = L) (hdns : dns host = some (ip :: more))
    (hp1 : p1 < 256) (hp2 : p2 < 256)
    (hdial : dial ip (p1 * 256 + p2) = some loc) :
    (ip.length = 4 →
      clientLoop dns dial
          (5 :: 1 :: 0 :: 5 :: 1 :: 0 :: 3 :: L :: (host ++ p1 :: p2 :: rest)) =
        ⟨([5, 0, 5, 0, 0, 1] ++ ip) ++ [p1, p2], rest, true⟩) ∧
    (ip.length = 16 →
      clientLoop dns dial
          (5 :: 1 :: 0 :: 5 :: 1 :: 0 :: 3 :: L :: (host ++ p1 :: p2 :: rest)) =
        ⟨([5, 0, 5, 0, 0, 4] ++ ip) ++ [p1, p2], rest, true⟩) := by
  have hreq := handleRequest_domain dns host L p1 p2 rest ip more hL hdns
  have e1 : (p1 * 256 + p2) / 256 % 256 = p1 := by omega
  have e2 : (p1 * 256 + p2) % 256 = p2 := by omega
  constructor
  · intro hfour
    rw [hfour] at hreq
    norm_num at hreq
    have hs := successReply_eq 1 ip (p1 * 256 + p2) (by omega) (by omega)
    simp only [clientLoop, handleGreeting_one_method0, hreq, finishDial, hdial, hs,
      e1, e2]
    simp
  · intro hsixteen
    rw [hsixteen] at hreq
    norm_num at hreq
    have hs := successReply_eq 4 ip (p1 * 256 + p2) (by omega) (by omega)
    simp only [clientLoop, handleGreeting_one_method0, hreq, finishDial, hdial, hs,
      e1, e2]
    simp

/-- C5, witness at a concrete input: host "a" resolving to 10.0.0.1. -/
theorem domainReply_family_witness :
    ((([10, 0, 0, 1] : List Nat).length = 4 →
      clientLoop (fun _ => some [[10, 0, 0, 1]]) (fun _ _ => some ([0], 0))
          (5 :: 1 :: 0 :: 5 :: 1 :: 0 :: 3 :: 1 :: ([97] ++ 0 :: 80 :: [])) =
        ⟨([5, 0, 5, 0, 0, 1] ++ [10, 0, 0, 1]) ++ [0, 80], [], true⟩) ∧
    (([10, 0, 0, 1] : List Nat).length = 16 →
      clientLoop (fun _ => some [[10, 0, 0, 1]]) (fun _ _ => some ([0], 0))
          (5 :: 1 :: 0 :: 5 :: 1 :: 0 :: 3 :: 1 :: ([97] ++ 0 :: 80 :: [])) =
        ⟨([5, 0, 5, 0, 0, 4] ++ [10, 0, 0, 1]) ++ [0, 80], [], true⟩)) :=
  domainReply_family (fun _ => some [[10, 0, 0, 1]]) (fun _ _ => some ([0], 0))
    [97] [] 1 0 80 [10, 0, 0, 1] [] ([0], 0) rfl rfl (by decide) (by decide) rfl

/-- C6: for every well-formed greeting (version 5, at least one method)
whose offered method set contains `0x00`, the proxy writes the
method-selection reply `[0x05][0x00]` and proceeds to request parsing; for
every well-formed greeting whose method set omits `0x00`, the connection is
closed with no bytes written to the client at all. -/
theorem greeting_method0_gate (n : Nat) (ms rest : List Nat)
    (hlen : ms.length = n) (hn : n ≠ 0) :
    (0 ∈ ms →
      handleGreeting (5 :: n :: (ms ++ rest)) = .next () [5, 0] rest) ∧
    (0 ∉ ms →
      ∀ dns dial, clientLoop dns dial (5 :: n :: (ms ++ rest)) = ⟨[], rest, false⟩) := by
  have hg := handleGreeting_eq n ms rest hlen hn
  constructor
  · intro h
    rw [hg, if_pos ((hasMethod0_iff ms).2 h)]
  · intro h dns dial
    have hfalse : hasMethod0 ms = false := by
      cases hb : hasMethod0 ms
      · rfl
      · exact absurd ((hasMethod0_iff ms).1 hb) h
    simp only [clientLoop, hg, hfalse]
    simp

/-- C6, witness at a concrete input: methods `[1, 0]` contain `0x00`. -/
theorem greeting_method0_gate_witness :
    (0 ∈ ([1, 0] : List Nat) →
      handleGreeting (5 :: 2 :: ([1, 0] ++ [9])) = .next () [5, 0] [9]) ∧
    (0 ∉ ([1, 0] : List Nat) →
      ∀ dns dial, clientLoop dns dial (5 :: 2 :: ([1, 0] ++ [9])) = ⟨[], [9], false⟩) :=
  greeting_method0_gate 2 [1, 0] [9] rfl (by decide)

/-- C7: a well-formed 4-byte request header that is rejected early gets
exactly the abbreviated 4-byte reply `[0x05][REP][0x00][0x00]` before the
connection closes: `REP = 0x07` when the command is not CONNECT (`0x01`),
and `REP = 0x08` when the command is CONNECT but the address type is none of
`0x01`, `0x03`, `0x04`. -/
theorem request_early_reject (dns : List Nat → Option (List (List Nat)))
    (cmd rsv a : Nat) (s : List Nat) :
    (cmd ≠ 1 → handleRequest dns (5 :: cmd :: rsv :: a :: s) = .closed [5, 7, 0, 0] s) ∧
    (a ≠ 1 → a ≠ 3 → a ≠ 4 →
      handleRequest dns (5 :: 1 :: 0 :: a :: s) = .closed [5, 8, 0, 0] s) := by
  constructor
  · intro h
    have h4 : readFull 4 (5 :: cmd :: rsv :: a :: s) = some ([5, cmd, rsv, a], s) :=
      readFull_exact 4 [5, cmd, rsv, a] s rfl
    rw [handleRequest, h4]
    simp [h, take4_set7]
  · intro h1 h3 h4
    have hr : readFull 4 (5 :: 1 :: 0 :: a :: s) = some ([5, 1, 0, a], s) :=
      readFull_exact 4 [5, 1, 0, a] s rfl
    rw [handleRequest, hr]
    simp [h1, h3, h4, take4_set8]

/-- C8: decoding an IPv4 request's 6-byte remainder recovers the 4 address
bytes and the big-endian port `(high<<8)+low`, and the round trip — encode a
success reply from that address and port, strip the 4-byte header, decode
again — yields the original address and port. -/
theorem ipv4_decode_roundtrip (b1 b2 b3 b4 p1 p2 : Nat)
    (h1 : p1 < 256) (h2 : p2 < 256) :
    decodeAddrPort 4 [b1, b2, b3, b4, p1, p2] = ([b1, b2, b3, b4], p1 * 256 + p2) ∧
    decodeAddrPort 4
        ((encodeSuccessReply (initReply.set 3 1) [b1, b2, b3, b4]
          (p1 * 256 + p2)).drop 4) =
      ([b1, b2, b3, b4], p1 * 256 + p2) := by
  constructor
  · rfl
  · have hstep : decodeAddrPort 4
        ((encodeSuccessReply (initReply.set 3 1) [b1, b2, b3, b4]
          (p1 * 256 + p2)).drop 4) =
        ([b1, b2, b3, b4],
         (p1 * 256 + p2) / 256 % 256 * 256 + (p1 * 256 + p2) % 256) := rfl
    rw [hstep]
    have hport : (p1 * 256 + p2) / 256 % 256 * 256 + (p1 * 256 + p2) % 256 =
        p1 * 256 + p2 := by omega
    rw [hport]

/-- C8, witness at a concrete input. -/
theorem ipv4_decode_roundtrip_witness :
    decodeAddrPort 4 [1, 2, 3, 4, 0, 80] = ([1, 2, 3, 4], 0 * 256 + 80) ∧
    decodeAddrPort 4
        ((encodeSuccessReply (initReply.set 3 1) [1, 2, 3, 4] (0 * 256 + 80)).drop 4) =
      ([1, 2, 3, 4], 0 * 256 + 80) :=
  ipv4_decode_roundtrip 1 2 3 4 0 80 (by decide) (by decide)

/-- C9: for every domain-name CONNECT request whose DNS lookup fails or
returns zero addresses, the connection is closed with no wire reply to the
request — all the client ever received is the 2-byte method selection. -/
theorem dnsFailure_silent (dns : List Nat → Option (List (List Nat)))
    (dial : List Nat → Nat → Option (List Nat × Nat))
    (host rest : List Nat) (L : Nat)
    (hL : host.length = L) (hdns : dns host = none ∨ dns host = some []) :
    clientLoop dns dial (5 :: 1 :: 0 :: 5 :: 1 :: 0 :: 3 :: L :: (host ++ rest)) =
      ⟨[5, 0], rest, false⟩ := by
  have hreq := handleRequest_domain_fail dns host rest L hL hdns
  simp only [clientLoop, handleGreeting_one_method0, hreq]
  simp

/-- C9, witness at a concrete input: lookup of host "ab" fails. -/
theorem dnsFailure_silent_witness :
    clientLoop (fun _ => none) (fun _ _ => none)
        (5 :: 1 :: 0 :: 5 :: 1 :: 0 :: 3 :: 2 :: ([97, 98] ++ [0, 80])) =
      ⟨[5, 0], [0, 80], false⟩ :=
  dnsFailure_silent (fun _ => none) (fun _ _ => none) [97, 98] [0, 80] 2 rfl
    (Or.inl rfl)

/-- C10: on a domain-name CONNECT request, the DNS lookup runs after the
length byte and the host name are read but before the 2 port bytes are read,
so when resolution fails only `L+1` of the `L+3` variable-part bytes have
been consumed: the port bytes (and anything after them) are still unread in
the client stream. -/
theorem dnsFailure_port_unread (dns : List Nat → Option (List (List Nat)))
    (dial : List Nat → Nat → Option (List Nat × Nat))
    (host pb extra : List Nat) (L : Nat)
    (hL : host.length = L) (hdns : dns host = none) :
    clientLoop dns dial
        (5 :: 1 :: 0 :: 5 :: 1 :: 0 :: 3 :: L :: (host ++ (pb ++ extra))) =
      ⟨[5, 0], pb ++ extra, false⟩ := by
  have hreq := handleRequest_domain_fail dns host (pb ++ extra) L hL (Or.inl hdns)
  simp only [clientLoop, handleGreeting_one_method0, hreq]
  simp

/-- C10, witness at a concrete input: the two port bytes `[0, 80]` and a
trailing byte survive unread. -/
theorem dnsFailure_port_unread_witness :
    clientLoop (fun _ => none) (fun _ _ => none)
        (5 :: 1 :: 0 :: 5 :: 1 :: 0 :: 3 :: 1 :: ([97] ++ ([0, 80] ++ [7]))) =
      ⟨[5, 0], [0, 80] ++ [7], false⟩ :=
  dnsFailure_port_unread (fun _ => none) (fun _ _ => none) [97] [0, 80] [7] 1 rfl rfl

end Gosocks
